import Mathlib

/-!
Shallow embedding of `src/server.js`, a minimal retrieval-augmented-generation
service (in-memory document store, cosine-similarity ranking, batch ingest with
an external embedding gateway, JSON snapshot persistence).

Modelling conventions:
* JavaScript numbers that are stored or transported as JSON are modelled as `ℚ`;
  the similarity arithmetic (`cosine`, which uses `Math.sqrt`) is modelled over `ℝ`.
* The external embedding / generation gateways are oracles
  `String → Except String _`: `.error` models a rejected promise (a thrown error).
* Mutation of the module-level `kb` array is modelled by explicit state passing:
  each handler returns the new store.
* The ingest loop additionally returns the list of texts sent to the embedding
  gateway (ghost instrumentation used to state "later items are never attempted").
-/

/-- A stored document: `{ id, text, embedding: number[] (may be absent), timestamp }`
(`src/server.js` line 20).  Timestamps are ISO strings in the source and are kept
as opaque `String`s. -/
structure Doc where
  id : String
  text : String
  embedding : Option (List ℚ)
  timestamp : String
deriving DecidableEq, Repr

/-- JSON values, as produced by `JSON.stringify` / consumed by `JSON.parse`.
Numbers are modelled as `ℚ`. -/
inductive Json where
  | str (s : String)
  | num (q : ℚ)
  | arr (elems : List Json)
  | obj (fields : List (String × Json))

/-- Key lookup in a JSON object's field list (JavaScript property access). -/
def jsonLookup (key : String) : List (String × Json) → Option Json
  | [] => none
  | (k, v) :: rest => if k = key then some v else jsonLookup key rest

/-- Serialize one document the way `JSON.stringify` renders the objects pushed
onto `kb`: keys `id`, `text`, `embedding` (omitted when absent, since
`JSON.stringify` drops `undefined` properties), `timestamp`. -/
def encodeDoc (d : Doc) : Json :=
  .obj ([("id", .str d.id), ("text", .str d.text)]
    ++ (match d.embedding with
        | some v => [("embedding", .arr (v.map .num))]
        | none => [])
    ++ [("timestamp", .str d.timestamp)])

/-- Read a JSON array of numbers back into a vector. -/
def decodeNums : List Json → Option (List ℚ)
  | [] => some []
  | .num q :: rest => (decodeNums rest).map (q :: ·)
  | _ => none

/-- Parse one persisted document record back into a `Doc` (the typed reading of
what `JSON.parse` hands back for one `kb` entry). -/
def decodeDoc (j : Json) : Option Doc :=
  match j with
  | .obj fields =>
    match jsonLookup "id" fields, jsonLookup "text" fields,
          jsonLookup "timestamp" fields with
    | some (.str i), some (.str t), some (.str ts) =>
      match jsonLookup "embedding" fields with
      | none => some ⟨i, t, none, ts⟩
      | some (.arr es) => (decodeNums es).map (fun v => ⟨i, t, some v, ts⟩)
      | some _ => none
    | _, _, _ => none
  | _ => none

/-- `saveKB` (`src/server.js` lines 22-24): writes `JSON.stringify(kb, null, 2)`,
i.e. the JSON array of the encoded documents, overwriting the snapshot wholesale. -/
def saveKB (kb : List Doc) : Json :=
  .arr (kb.map encodeDoc)

/-- Parse each element of a persisted snapshot array in order. -/
def decodeDocs : List Json → Option (List Doc)
  | [] => some []
  | j :: rest =>
    match decodeDoc j with
    | some d => (decodeDocs rest).map (d :: ·)
    | none => none

/-- Parse a persisted snapshot back into the document sequence. -/
def decodeKB (j : Json) : Option (List Doc) :=
  match j with
  | .arr es => decodeDocs es
  | _ => none

/-- The two seed documents of `loadKB` (`src/server.js` lines 30-41); `now` stands
for `new Date().toISOString()` at load time. -/
def seedKB (now : String) : List Doc :=
  [⟨"d1",
    "TinyLlama is a small language model optimized for fast inference on modest hardware.",
    none, now⟩,
   ⟨"d2",
    "React Native builds mobile apps using JavaScript and native widgets for iOS and Android.",
    none, now⟩]

/-- `loadKB` (`src/server.js` lines 26-43): when a snapshot file exists its JSON
content is parsed into `kb`; otherwise `kb` is seeded with the two fixed example
documents.  `file = none` models a missing `kb.json`; parsing is the typed reading
of `JSON.parse`. -/
def loadKB (file : Option Json) (now : String) : Option (List Doc) :=
  match file with
  | some j => decodeKB j
  | none => some (seedKB now)

section Cosine

/-- The accumulator loop of `cosine` (`src/server.js` lines 62-67): iterates over
the indices of `a`, accumulating `(dot, na, nb)`.  Reading `b[i]` is modelled by
`headD`/`tail`; the default `0` is only reachable when `b` is shorter than `a`
(where the JavaScript original reads `undefined` and produces `NaN`). -/
def cosineSums : List ℝ → List ℝ → ℝ × ℝ × ℝ
  | [], _ => (0, 0, 0)
  | x :: as_, bs =>
    let p := cosineSums as_ bs.tail
    (p.1 + x * bs.headD 0, p.2.1 + x * x, p.2.2 + bs.headD 0 * bs.headD 0)

/-- The denominator of `cosine` (`src/server.js` line 68):
`Math.sqrt(na) * Math.sqrt(nb) + 1e-9`. -/
noncomputable def cosineDenom (a b : List ℝ) : ℝ :=
  Real.sqrt (cosineSums a b).2.1 * Real.sqrt (cosineSums a b).2.2 + 1e-9

/-- `cosine(a, b)` (`src/server.js` lines 61-69). -/
noncomputable def cosine (a b : List ℝ) : ℝ :=
  (cosineSums a b).1 / cosineDenom a b

end Cosine

section Ranker

/-- A scored candidate `{ ...d, score }` built by the `/chat` ranking pipeline
(`src/server.js` line 111). -/
structure Scored where
  doc : Doc
  score : ℝ

/-- Number of elements produced by `array.slice(0, e)` on an array of length
`len`: a negative end index counts from the end of the array
(`max (len + e) 0`), a non-negative one is clamped to the length. -/
def jsSliceLen (len : ℕ) (e : ℤ) : ℕ :=
  if e < 0 then ((len : ℤ) + e).toNat else min e.toNat len

/-- `l.slice(0, e)` with JavaScript index semantics. -/
def jsSlice {α : Type} (l : List α) (e : ℤ) : List α :=
  l.take (jsSliceLen l.length e)

/-- Cast a stored/transported vector (JSON numbers, `ℚ`) into the reals used by
the similarity arithmetic. -/
def ratVec (v : List ℚ) : List ℝ :=
  v.map (fun q => (q : ℝ))

/-- Score of one document against the query embedding:
`cosine(qemb, d.embedding)` (`src/server.js` line 111).  An absent embedding is
read as `[]`; in JavaScript that read yields `NaN`, so theorems about ranking
carry the hypothesis that every document is embedded. -/
noncomputable def scoreDoc (qemb : List ℚ) (d : Doc) : ℝ :=
  cosine (ratVec qemb) (ratVec (d.embedding.getD []))

open Classical in
/-- The sort comparator `(a, b) => b.score - a.score` (`src/server.js` line 112):
`x` stays before `y` exactly when the comparator is `≤ 0`, i.e. `y.score ≤ x.score`. -/
noncomputable def rankLE (x y : Scored) : Bool :=
  decide (y.score ≤ x.score)

/-- The `/chat` ranking pipeline (`src/server.js` lines 110-113):
score every stored document, sort descending by score (stable, as required of
`Array.prototype.sort`), then `slice(0, topK)`. -/
noncomputable def rank (qemb : List ℚ) (kb : List Doc) (topK : ℤ) : List Scored :=
  jsSlice ((kb.map (fun d => ⟨d, scoreDoc qemb d⟩)).mergeSort rankLE) topK

end Ranker

section Ingest

/-- One element of the `documents` array of a `POST /ingest` body; either
property may be missing (`none`) and `some ""` is falsy as well. -/
structure RawDoc where
  id : Option String
  text : Option String
deriving DecidableEq, Repr

/-- JavaScript falsiness of an optional string property (`undefined`, `null`
and `""` are falsy). -/
def falsy : Option String → Bool
  | none => true
  | some s => s == ""

/-- The skip test `!doc.id || !doc.text` (`src/server.js` line 87). -/
def skipDoc (d : RawDoc) : Bool :=
  falsy d.id || falsy d.text

/-- The `for (const doc of docs)` loop of `POST /ingest`
(`src/server.js` lines 86-95).  Returns the documents pushed onto `kb`, the
list of texts sent to the embedding gateway (ghost instrumentation), and the
first gateway error if one was thrown (which aborts the rest of the batch). -/
def ingestLoop (gw : String → Except String (List ℚ)) (ts : String) :
    List RawDoc → List Doc × List String × Option String
  | [] => ([], [], none)
  | d :: rest =>
    if skipDoc d then ingestLoop gw ts rest
    else
      match gw (d.text.getD "") with
      | .ok emb =>
        let r := ingestLoop gw ts rest
        (⟨d.id.getD "", d.text.getD "", some emb, ts⟩ :: r.1, d.text.getD "" :: r.2.1, r.2.2)
      | .error e => ([], [d.text.getD ""], some e)

/-- Response of `POST /ingest`: `{added: n}` on success, 500 `{error: message}`
when the loop threw. -/
inductive IngestResp where
  | ok (added : ℕ)
  | err (error : String)
deriving DecidableEq, Repr

/-- Result of one `POST /ingest` request: the new store, whether `saveKB` ran
(it is only reached when the loop completes), and the HTTP response. -/
structure IngestOutcome where
  kb : List Doc
  persisted : Bool
  resp : IngestResp
deriving DecidableEq, Repr

/-- The `POST /ingest` handler (`src/server.js` lines 83-102): runs the loop
(pushes happen as the loop goes, so they survive an abort), then persists and
answers `{added: docs.length}`; a thrown gateway error skips `saveKB` and
answers 500. -/
def ingestHandler (gw : String → Except String (List ℚ)) (ts : String)
    (kb : List Doc) (docs : List RawDoc) : IngestOutcome :=
  match (ingestLoop gw ts docs).2.2 with
  | none => ⟨kb ++ (ingestLoop gw ts docs).1, true, .ok docs.length⟩
  | some e => ⟨kb ++ (ingestLoop gw ts docs).1, false, .err e⟩

end Ingest

section Backfill

/-- The loop of `ensureEmbeddings` (`src/server.js` lines 53-58): documents are
visited in store order, those already embedded are untouched
(`kb.filter(d => !d.embedding)`), the rest get `d.embedding = await embedOne(d.text)`
one at a time; the first gateway error aborts, leaving every later document
unchanged.  Returns the updated store and the error, if any. -/
def backfillLoop (gw : String → Except String (List ℚ)) :
    List Doc → List Doc × Option String
  | [] => ([], none)
  | d :: rest =>
    match d.embedding with
    | some _ =>
      let r := backfillLoop gw rest
      (d :: r.1, r.2)
    | none =>
      match gw d.text with
      | .ok v =>
        let r := backfillLoop gw rest
        ({ d with embedding := some v } :: r.1, r.2)
      | .error e => (d :: rest, some e)

/-- `ensureEmbeddings` (`src/server.js` lines 53-59): the backfill loop followed
by `saveKB()`, which is only reached when no error was thrown.  Second component:
whether the store was persisted. -/
def ensureEmbeddings (gw : String → Except String (List ℚ)) (kb : List Doc) :
    List Doc × Bool :=
  let (kb2, err?) := backfillLoop gw kb
  (kb2, err?.isNone)

end Backfill

section Chat

/-- `String.prototype.trim` on the character list: strip leading and trailing
whitespace. -/
def jsTrimChars (l : List Char) : List Char :=
  ((l.dropWhile Char.isWhitespace).reverse.dropWhile Char.isWhitespace).reverse

/-- The validation `!query || !query.trim()` (`src/server.js` line 107): the
query is missing, empty, or whitespace-only. -/
def isBlankQuery (q : Option String) : Bool :=
  jsTrimChars (q.getD "").toList == []

/-- `+x.score.toFixed(4)` (`src/server.js` line 140): round to 4 decimal places,
ties away from zero (`toFixed` rounds the magnitude half-up). -/
noncomputable def round4 (x : ℝ) : ℝ :=
  if x < 0 then -((⌊-x * 10000 + 1/2⌋ : ℤ) : ℝ) / 10000
  else ((⌊x * 10000 + 1/2⌋ : ℤ) : ℝ) / 10000

/-- `const { query, topK = 3 } = req.body` (`src/server.js` line 106): `topK`
defaults to 3 when the body has no `topK` property. -/
def effectiveTopK (topK : Option ℤ) : ℤ :=
  topK.getD 3

/-- One entry of the `sources` array of a `/chat` response
(`src/server.js` lines 138-142). -/
structure ChatSource where
  id : String
  score : ℝ
  timestamp : String

/-- Response of `POST /chat`: 400 on blank query, 500 on a thrown gateway
error, otherwise `{response, sources}` (the wall-clock `elapsed` field is not
modelled). -/
inductive ChatResp where
  | badRequest (error : String)
  | serverError (error : String)
  | ok (response : String) (sources : List ChatSource)

/-- `[${d.id}] ${d.text}` entries joined by the separator
(`src/server.js` line 115). -/
def buildContext (ranked : List Scored) : String :=
  String.intercalate "\n---\n" (ranked.map (fun s => "[" ++ s.doc.id ++ "] " ++ s.doc.text))

/-- The prompt template (`src/server.js` lines 117-125). -/
def buildPrompt (context query : String) : String :=
  "You are a helpful assistant. Use the CONTEXT to answer clearly.\nIf the answer is not in the context, say you are not sure.\n\nCONTEXT:\n"
    ++ context ++ "\n\nUSER: " ++ query ++ "\nASSISTANT:"

/-- The `POST /chat` handler (`src/server.js` lines 104-148): validate the
query, embed it, rank the store (`topK` defaults to 3 when the body has no
`topK` property), call the generation gateway, and answer with the generated
text and the rounded scores of the ranked sources.  The store is returned
unchanged on every path. -/
noncomputable def chatHandler (embedGw : String → Except String (List ℚ))
    (genGw : String → Except String String) (kb : List Doc)
    (q : Option String) (topK : Option ℤ) : ChatResp × List Doc :=
  if isBlankQuery q then (.badRequest "query is required", kb)
  else
    match embedGw (q.getD "") with
    | .error e => (.serverError e, kb)
    | .ok qemb =>
      let ranked := rank qemb kb (effectiveTopK topK)
      match genGw (buildPrompt (buildContext ranked) (q.getD "")) with
      | .error e => (.serverError e, kb)
      | .ok resp =>
        (.ok resp (ranked.map (fun x => ⟨x.doc.id, round4 x.score, x.doc.timestamp⟩)), kb)

end Chat

section Fixtures

/-- Concrete embedded document used in witnesses and counterexamples. -/
def docA : Doc := ⟨"a", "text a", some [1], "t1"⟩

/-- Concrete embedded document used in witnesses and counterexamples. -/
def docB : Doc := ⟨"b", "text b", some [0], "t2"⟩

/-- A concrete two-document, fully embedded corpus. -/
def kbW : List Doc := [docA, docB]

/-- Embedding-gateway stub that always succeeds with `[1]`. -/
def gwOk : String → Except String (List ℚ) := fun _ => .ok [1]

/-- Embedding-gateway stub that throws on the text `"boom"` and succeeds
elsewhere. -/
def gwBoom : String → Except String (List ℚ) :=
  fun t => if t == "boom" then .error "gw down" else .ok [1]

/-- Generation-gateway stub. -/
def genOk : String → Except String String := fun _ => .ok "answer"

end Fixtures

/-- Field-wise relation between a document and its later state: identifier,
text and timestamp unchanged, and an embedding that was present is still the
same vector (embeddings may only go from absent to present). -/
def PreservesDoc (d d' : Doc) : Prop :=
  d'.id = d.id ∧ d'.text = d.text ∧ d'.timestamp = d.timestamp ∧
    ∀ v, d.embedding = some v → d'.embedding = some v

lemma preservesDoc_refl (d : Doc) : PreservesDoc d d :=
  ⟨rfl, rfl, rfl, fun _ h => h⟩

lemma decodeNums_encode (v : List ℚ) : decodeNums (v.map .num) = some v := by
  induction v with
  | nil => rfl
  | cons q rest ih => simp [decodeNums, ih]

lemma decodeDoc_encodeDoc (d : Doc) : decodeDoc (encodeDoc d) = some d := by
  obtain ⟨i, t, emb, ts⟩ := d
  cases emb with
  | none => simp [encodeDoc, decodeDoc, jsonLookup]
  | some v => simp [encodeDoc, decodeDoc, jsonLookup, decodeNums_encode]

/-- C7.  When no persisted snapshot exists, `loadKB` seeds the store with
exactly the two documents `d1` and `d2`, with their fixed texts, no embedding,
and the load time as timestamp. -/
theorem loadKB_seeds_exactly (now : String) :
    loadKB none now = some
      [⟨"d1",
        "TinyLlama is a small language model optimized for fast inference on modest hardware.",
        none, now⟩,
       ⟨"d2",
        "React Native builds mobile apps using JavaScript and native widgets for iOS and Android.",
        none, now⟩] := rfl

/-- C8.  Persisting the store and then reloading it yields the identical
ordered document sequence: every id, text, embedding (or its absence) and
timestamp is preserved. -/
theorem saveKB_loadKB_roundtrip (kb : List Doc) (now : String) :
    loadKB (some (saveKB kb)) now = some kb := by
  show decodeKB (saveKB kb) = some kb
  unfold saveKB decodeKB
  induction kb with
  | nil => rfl
  | cons d rest ih => simp_all [decodeDocs, decodeDoc_encodeDoc]

lemma cosineSums_swap : ∀ (a b : List ℝ), a.length = b.length →
    (cosineSums a b).1 = (cosineSums b a).1 ∧
    (cosineSums a b).2.1 = (cosineSums b a).2.2 ∧
    (cosineSums a b).2.2 = (cosineSums b a).2.1 := by
  intro a
  induction a with
  | nil =>
    intro b h
    cases b with
    | nil => simp [cosineSums]
    | cons y bs => simp at h
  | cons x as_ ih =>
    intro b h
    cases b with
    | nil => simp at h
    | cons y bs =>
      obtain ⟨h1, h2, h3⟩ := ih bs (by simpa using h)
      refine ⟨?_, ?_, ?_⟩ <;> simp [cosineSums, h1, h2, h3] <;> ring

lemma cosineDenom_pos (a b : List ℝ) : 0 < cosineDenom a b := by
  unfold cosineDenom
  have h1 : (0 : ℝ) ≤ Real.sqrt (cosineSums a b).2.1 * Real.sqrt (cosineSums a b).2.2 :=
    mul_nonneg (Real.sqrt_nonneg _) (Real.sqrt_nonneg _)
  have h2 : (0 : ℝ) < 1e-9 := by norm_num
  linarith

/-- C4.  `similarity` is commutative: for vectors of equal nonzero length,
`cosine a b = cosine b a`. -/
theorem similarity_comm (a b : List ℝ) (hne : 0 < a.length)
    (hlen : a.length = b.length) : cosine a b = cosine b a := by
  obtain ⟨h1, h2, h3⟩ := cosineSums_swap a b hlen
  unfold cosine cosineDenom
  rw [h1, h2, h3, mul_comm]

/-- Witness for C4 at `a = [1, 2]`, `b = [3, 4]`. -/
theorem similarity_comm_witness :
    0 < ([1, 2] : List ℝ).length ∧ ([1, 2] : List ℝ).length = ([3, 4] : List ℝ).length ∧
      cosine [1, 2] [3, 4] = cosine [3, 4] [1, 2] :=
  ⟨by decide, by decide, similarity_comm [1, 2] [3, 4] (by decide) (by decide)⟩

lemma cosineSums_zeroVec (n : ℕ) (b : List ℝ) :
    (cosineSums (List.replicate n 0) b).1 = 0 ∧
    (cosineSums (List.replicate n 0) b).2.1 = 0 := by
  induction n generalizing b with
  | zero => simp [cosineSums]
  | succ n ih =>
    obtain ⟨h1, h2⟩ := ih b.tail
    simp [List.replicate_succ, cosineSums, h1, h2]

/-- C5.  Applying `similarity` to the zero vector incurs no division by zero:
the epsilon-stabilized denominator is strictly positive (for any second
argument), and the result is the finite value `0`. -/
theorem similarity_zeroVec_finite (n : ℕ) (b : List ℝ) :
    0 < cosineDenom (List.replicate n 0) b ∧ cosine (List.replicate n 0) b = 0 := by
  refine ⟨cosineDenom_pos _ _, ?_⟩
  unfold cosine
  rw [(cosineSums_zeroVec n b).1, zero_div]

lemma cosineSums_take (a : List ℝ) : ∀ b : List ℝ,
    cosineSums a (b.take a.length) = cosineSums a b := by
  induction a with
  | nil => intro b; rfl
  | cons x as_ ih =>
    intro b
    cases b with
    | nil => simp [cosineSums]
    | cons y bs => simp [cosineSums, List.take, ih bs]

/-- C10.  `cosine` iterates only over the indices of its first argument: when
`b` is at least as long as `a`, `cosine a b` equals `cosine` of `a` against the
prefix of `b` of `a`'s length, so trailing components of `b` never influence
the result. -/
theorem similarity_ignores_tail (a b : List ℝ) (h : a.length ≤ b.length) :
    cosine a b = cosine a (b.take a.length) := by
  unfold cosine cosineDenom
  rw [cosineSums_take]

/-- Witness for C10 at `a = [1]`, `b = [2, 3]`. -/
theorem similarity_ignores_tail_witness :
    ([1] : List ℝ).length ≤ ([2, 3] : List ℝ).length ∧
      cosine [1] [2, 3] = cosine [1] (([2, 3] : List ℝ).take ([1] : List ℝ).length) :=
  ⟨by decide, similarity_ignores_tail [1] [2, 3] (by decide)⟩

/-- C6.  A `POST /chat` whose query is missing, empty, or whitespace-only is
answered with 400 `{error: "query is required"}` and leaves the store
unchanged. -/
theorem chat_blank_query_400 (egw : String → Except String (List ℚ))
    (ggw : String → Except String String) (kb : List Doc) (q : Option String)
    (topK : Option ℤ) (h : isBlankQuery q = true) :
    chatHandler egw ggw kb q topK = (.badRequest "query is required", kb) := by
  simp [chatHandler, h]

/-- Witness for C6 at a whitespace-only query. -/
theorem chat_blank_query_400_witness :
    isBlankQuery (some "   ") = true ∧
      chatHandler gwOk genOk kbW (some "   ") none
        = (.badRequest "query is required", kbW) :=
  ⟨by decide, chat_blank_query_400 gwOk genOk kbW (some "   ") none (by decide)⟩

/-- C3.  When the whole batch is processed without a gateway error, `/ingest`
persists and answers `{added: docs.length}` — the length of the input batch,
regardless of how many items the loop skipped. -/
theorem ingest_counts_batch_size (gw : String → Except String (List ℚ))
    (ts : String) (kb : List Doc) (docs : List RawDoc)
    (h : (ingestLoop gw ts docs).2.2 = none) :
    ingestHandler gw ts kb docs
      = ⟨kb ++ (ingestLoop gw ts docs).1, true, .ok docs.length⟩ := by
  unfold ingestHandler
  rw [h]

/-- Witness for C3: a two-item batch whose second item lacks an id is answered
with `added = 2` although only one document was appended. -/
theorem ingest_counts_batch_size_witness :
    (ingestLoop gwOk "ts" [⟨some "a", some "x"⟩, ⟨none, some "y"⟩]).2.2 = none ∧
      ingestHandler gwOk "ts" [] [⟨some "a", some "x"⟩, ⟨none, some "y"⟩]
        = ⟨[⟨"a", "x", some [1], "ts"⟩], true, .ok 2⟩ :=
  ⟨by decide,
    ingest_counts_batch_size gwOk "ts" [] [⟨some "a", some "x"⟩, ⟨none, some "y"⟩]
      (by decide)⟩

lemma ingestLoop_append_error (gw : String → Except String (List ℚ)) (ts : String) :
    ∀ (pre : List RawDoc) (bad : RawDoc) (post : List RawDoc) (e : String),
      (ingestLoop gw ts pre).2.2 = none →
      skipDoc bad = false →
      gw (bad.text.getD "") = .error e →
      ingestLoop gw ts (pre ++ bad :: post)
        = ((ingestLoop gw ts pre).1,
           (ingestLoop gw ts pre).2.1 ++ [bad.text.getD ""], some e) := by
  intro pre
  induction pre with
  | nil =>
    intro bad post e _ hskip herr
    simp [ingestLoop, hskip, herr]
  | cons d pre ih =>
    intro bad post e hpre hskip herr
    by_cases hd : skipDoc d = true
    · simp only [ingestLoop, hd, if_true, List.cons_append] at hpre ⊢
      exact ih bad post e hpre hskip herr
    · have hd' : skipDoc d = false := by simpa using hd
      cases hgw : gw (d.text.getD "") with
      | error e' => simp [ingestLoop, hd', hgw] at hpre
      | ok emb =>
        simp only [ingestLoop, hd', Bool.false_eq_true, if_false, hgw,
          List.cons_append, List.append_eq] at hpre ⊢
        rw [ih bad post e hpre hskip herr]

/-- C2.  When the embedding gateway throws on the first non-skipped item `bad`
after an error-free prefix `pre`, the `/ingest` handler leaves the store at
`kb` plus exactly the documents appended for `pre`, does not persist
(`saveKB` is never reached), answers 500, and the gateway was only ever called
on the prefix's texts plus `bad`'s text — items after `bad` are never
attempted. -/
theorem ingest_midbatch_failure (gw : String → Except String (List ℚ))
    (ts : String) (kb : List Doc) (pre : List RawDoc) (bad : RawDoc)
    (post : List RawDoc) (e : String)
    (hpre : (ingestLoop gw ts pre).2.2 = none)
    (hskip : skipDoc bad = false)
    (herr : gw (bad.text.getD "") = .error e) :
    ingestHandler gw ts kb (pre ++ bad :: post)
        = ⟨kb ++ (ingestLoop gw ts pre).1, false, .err e⟩
      ∧ (ingestLoop gw ts (pre ++ bad :: post)).2.1
        = (ingestLoop gw ts pre).2.1 ++ [bad.text.getD ""] := by
  have h := ingestLoop_append_error gw ts pre bad post e hpre hskip herr
  constructor
  · unfold ingestHandler
    rw [h]
  · rw [h]

/-- Witness for C2: a three-item batch whose second item makes the gateway
throw; the first item's document is appended, nothing is persisted, and the
third item's text is never sent to the gateway. -/
theorem ingest_midbatch_failure_witness :
    (ingestLoop gwBoom "ts" [⟨some "a", some "x"⟩]).2.2 = none ∧
      skipDoc ⟨some "b", some "boom"⟩ = false ∧
      gwBoom ((⟨some "b", some "boom"⟩ : RawDoc).text.getD "") = Except.error "gw down" ∧
      (ingestHandler gwBoom "ts" kbW
          ([⟨some "a", some "x"⟩] ++ ⟨some "b", some "boom"⟩ :: [⟨some "c", some "z"⟩])
          = ⟨kbW ++ (ingestLoop gwBoom "ts" [⟨some "a", some "x"⟩]).1, false, .err "gw down"⟩
        ∧ (ingestLoop gwBoom "ts"
            ([⟨some "a", some "x"⟩] ++ ⟨some "b", some "boom"⟩ :: [⟨some "c", some "z"⟩])).2.1
          = (ingestLoop gwBoom "ts" [⟨some "a", some "x"⟩]).2.1 ++ ["boom"]) :=
  ⟨by decide, by decide, rfl,
    ingest_midbatch_failure gwBoom "ts" kbW [⟨some "a", some "x"⟩]
      ⟨some "b", some "boom"⟩ [⟨some "c", some "z"⟩] "gw down"
      (by decide) (by decide) rfl⟩

/-- C9.  Documents already in the store are never rewritten: the backfill loop
preserves every document's id, text and timestamp and only ever moves an
embedding from absent to present (a present embedding is kept unchanged);
`/ingest` only appends, leaving the existing prefix of the store identical;
and `/chat` returns the store untouched on every path. -/
theorem existing_docs_immutable :
    (∀ (gw : String → Except String (List ℚ)) (kb : List Doc),
        List.Forall₂ PreservesDoc kb (backfillLoop gw kb).1)
    ∧ (∀ (gw : String → Except String (List ℚ)) (ts : String) (kb : List Doc)
        (docs : List RawDoc),
        (ingestHandler gw ts kb docs).kb.take kb.length = kb)
    ∧ (∀ (egw : String → Except String (List ℚ))
        (ggw : String → Except String String) (kb : List Doc)
        (q : Option String) (topK : Option ℤ),
        (chatHandler egw ggw kb q topK).2 = kb) := by
  refine ⟨?_, ?_, ?_⟩
  · intro gw kb
    induction kb with
    | nil => exact List.Forall₂.nil
    | cons d rest ih =>
      cases hemb : d.embedding with
      | some v =>
        simp only [backfillLoop, hemb]
        exact List.Forall₂.cons (preservesDoc_refl d) ih
      | none =>
        cases hgw : gw d.text with
        | ok v =>
          simp only [backfillLoop, hemb, hgw]
          exact List.Forall₂.cons
            ⟨rfl, rfl, rfl, fun w hw => by rw [hemb] at hw; cases hw⟩ ih
        | error e =>
          simp only [backfillLoop, hemb, hgw]
          exact List.Forall₂.cons (preservesDoc_refl d)
            (List.forall₂_same.mpr fun x _ => preservesDoc_refl x)
  · intro gw ts kb docs
    unfold ingestHandler
    cases (ingestLoop gw ts docs).2.2 with
    | none => exact List.take_left kb _
    | some e => exact List.take_left kb _
  · intro egw ggw kb q topK
    unfold chatHandler
    split
    · rfl
    · split
      · rfl
      · dsimp only
        split
        · rfl
        · rfl

lemma jsSliceLen_le (len : ℕ) (e : ℤ) : jsSliceLen len e ≤ len := by
  unfold jsSliceLen
  split <;> omega

lemma rank_length (qemb : List ℚ) (kb : List Doc) (k : ℤ) :
    (rank qemb kb k).length = jsSliceLen kb.length k := by
  unfold rank jsSlice
  rw [List.length_take, List.length_mergeSort, List.length_map]
  exact min_eq_left (jsSliceLen_le _ _)

lemma rankLE_trans (a b c : Scored) :
    rankLE a b = true → rankLE b c = true → rankLE a c = true := by
  unfold rankLE
  simp only [decide_eq_true_eq]
  exact fun h1 h2 => le_trans h2 h1

lemma rankLE_total (a b : Scored) : (rankLE a b || rankLE b a) = true := by
  unfold rankLE
  simp only [Bool.or_eq_true, decide_eq_true_eq]
  exact le_total b.score a.score

lemma rank_pairwise (qemb : List ℚ) (kb : List Doc) (k : ℤ) :
    List.Pairwise (fun x y : Scored => y.score ≤ x.score) (rank qemb kb k) := by
  unfold rank jsSlice
  refine List.Pairwise.imp ?_
    (List.Pairwise.sublist (List.take_sublist _ _)
      (List.sorted_mergeSort rankLE_trans rankLE_total
        (kb.map (fun d => ⟨d, scoreDoc qemb d⟩))))
  intro a b h
  simpa [rankLE] using h

lemma rank_full_perm (qemb : List ℚ) (kb : List Doc) (k : ℤ)
    (h : (kb.length : ℤ) ≤ k) :
    ((rank qemb kb k).map Scored.doc).Perm kb := by
  unfold rank jsSlice
  have hlen : jsSliceLen ((kb.map (fun d => ⟨d, scoreDoc qemb d⟩)).mergeSort rankLE).length k
      = ((kb.map (fun d => ⟨d, scoreDoc qemb d⟩)).mergeSort rankLE).length := by
    rw [List.length_mergeSort, List.length_map]
    unfold jsSliceLen
    split <;> omega
  rw [hlen, List.take_length]
  have hperm :=
    (List.mergeSort_perm (kb.map (fun d => ⟨d, scoreDoc qemb d⟩)) rankLE).map Scored.doc
  have hcomp : (Scored.doc ∘ fun d => (⟨d, scoreDoc qemb d⟩ : Scored)) = fun d : Doc => d := rfl
  simpa [List.map_map, hcomp] using hperm

/-- C1 (amended).  The `/chat` ranking pipeline returns candidates ordered
non-increasingly by score; for `topK ≥ 0` the result length is
`min(topK, corpus size)` (so `topK = 0` yields an empty result and `topK`
beyond the corpus size yields the whole corpus, as a permutation of it);
for negative `topK`, JavaScript `slice` semantics yield
`max(0, corpus size + topK)` candidates instead of an empty result; `topK`
defaults to 3 when the request body has no such property. -/
theorem rank_contract (qemb : List ℚ) (kb : List Doc) (k : ℤ)
    (hemb : ∀ d ∈ kb, d.embedding.isSome = true) :
    List.Pairwise (fun x y : Scored => y.score ≤ x.score) (rank qemb kb k)
    ∧ (0 ≤ k → (rank qemb kb k).length = min k.toNat kb.length)
    ∧ (k < 0 → (rank qemb kb k).length = ((kb.length : ℤ) + k).toNat)
    ∧ ((kb.length : ℤ) ≤ k → ((rank qemb kb k).map Scored.doc).Perm kb)
    ∧ effectiveTopK none = 3 := by
  refine ⟨rank_pairwise qemb kb k, ?_, ?_, rank_full_perm qemb kb k, rfl⟩
  · intro hk
    rw [rank_length]
    unfold jsSliceLen
    rw [if_neg (by omega)]
  · intro hk
    rw [rank_length]
    unfold jsSliceLen
    rw [if_pos hk]

/-- Witness for C1 (amended) on a concrete fully-embedded two-document corpus
with `topK = 2`. -/
theorem rank_contract_witness :
    (∀ d ∈ kbW, d.embedding.isSome = true) ∧
      (List.Pairwise (fun x y : Scored => y.score ≤ x.score) (rank [1] kbW 2)
        ∧ (0 ≤ (2 : ℤ) → (rank [1] kbW 2).length = min (2 : ℤ).toNat kbW.length)
        ∧ ((2 : ℤ) < 0 → (rank [1] kbW 2).length = ((kbW.length : ℤ) + 2).toNat)
        ∧ ((kbW.length : ℤ) ≤ 2 → ((rank [1] kbW 2).map Scored.doc).Perm kbW)
        ∧ effectiveTopK none = 3) :=
  ⟨by decide, rank_contract [1] kbW 2 (by decide)⟩

/-- Counterexample to C1 as stated: `topK ≤ 0` does not always yield an empty
result.  On a two-document corpus with `topK = -1`, JavaScript's
`slice(0, -1)` keeps one candidate. -/
theorem rank_negative_topK_counterexample :
    rank [1] kbW (-1) ≠ [] := by
  intro hc
  have h := rank_length [1] kbW (-1)
  rw [hc] at h
  simp [kbW, jsSliceLen] at h
